import Mathlib

/-
  Verification of the cellular-automaton core (`src/app.rs`) of the
  tui-cellular-automaton repository.

  The Rust code is shallowly embedded: the `Model` struct and its methods
  are translated into Lean definitions.  Machine integers are modelled as
  `Int`/`Nat`; the `usize as i16` truncating cast and the wrapping `i16`
  addition are made explicit where they can change behaviour.  Rust
  operations that can panic (slice indexing, out-of-range `Vec` writes)
  are modelled as `Option`-valued functions, `none` meaning a panic.
-/

namespace TuiCA

/-- Interpretation of a Rust `usize` value as `i16` via the truncating
`as` cast: keep the low 16 bits, read them as two's complement. -/
def usizeAsI16 (n : Nat) : Int :=
  if n % 65536 < 32768 then ((n % 65536 : Nat) : Int) else ((n % 65536 : Nat) : Int) - 65536

/-- Wrap an integer into the `i16` range `[-32768, 32767]` (two's
complement), modelling the overflow behaviour of `i16` addition in a
release build. -/
def i16Wrap (i : Int) : Int :=
  (i + 32768) % 65536 - 32768

/-- Interpretation of an `i16` value as `usize` via the `as` cast
(sign-extension to 64 bits, then reinterpretation). -/
def i16AsUsize (i : Int) : Nat :=
  (if 0 ≤ i then i else 2 ^ 64 + i).toNat

/-- Read a cell of a `Vec<Vec<bool>>` grid; out-of-range reads default to
`false` (every read in the embedded code is guarded to be in range on
well-formed grids, so the default is never observed there). -/
def getCell (g : List (List Bool)) (y x : Nat) : Bool :=
  (g.getD y []).getD x false

/-- Write a cell of a `Vec<Vec<bool>>` grid.  Rust's `cells[y][x] = v`
panics when an index is out of range; this is modelled by `none`. -/
def setCell (g : List (List Bool)) (y x : Nat) (v : Bool) : Option (List (List Bool)) :=
  if y < g.length ∧ x < (g.getD y []).length then
    some (g.set y ((g.getD y []).set x v))
  else
    none

/-- `dims g R C`: the grid has exactly `R` rows, each of length `C`. -/
def dims (g : List (List Bool)) (R C : Nat) : Prop :=
  g.length = R ∧ ∀ i, i < R → (g.getD i []).length = C

instance (g : List (List Bool)) (R C : Nat) : Decidable (dims g R C) := by
  unfold dims; infer_instance

/-- `struct Rule` of `app.rs` (`u8` entries modelled as `Nat`). -/
structure Rule where
  birth_list : List Nat
  survival_list : List Nat
deriving DecidableEq, Repr

/-- `enum State` of `app.rs`. -/
inductive State where
  | Editing
  | Running
  | Done
deriving DecidableEq, Repr

/-- `struct Coords` of `app.rs` (`i16` fields modelled as `Int`). -/
structure Coords where
  x : Int
  y : Int
deriving DecidableEq, Repr

/-- `enum Direction` of `app.rs`. -/
inductive Direction where
  | Up
  | Down
  | Left
  | Right
deriving DecidableEq, Repr

/-- `enum Message` of `app.rs`. -/
inductive Message where
  | Move (d : Direction)
  | ToggleCellState
  | ToggleEditing
  | Idle
  | Quit
deriving DecidableEq, Repr

/-- `enum Preset` of `app.rs`. -/
inductive Preset where
  | Blinker
  | Mold
  | Random
  | Empty
deriving DecidableEq, Repr

/-- `struct Model` of `app.rs` (`tickrate: u16` modelled as `Nat`). -/
structure Model where
  cells : List (List Bool)
  rule : Rule
  state : State
  current_coords : Coords
  max_coords : Coords
  tickrate : Nat
deriving DecidableEq, Repr

/-- `Rule::default` of `app.rs`. -/
def Rule.default : Rule :=
  { birth_list := [3], survival_list := [2, 3] }

/-- The character loop of `Rule::from` in `app.rs`.  Arguments mirror the
mutable locals `in_born`, `in_survival`, `birth_list`, `survival_list`;
an early `return Rule::default()` is a direct result.  The abort test
`char::is_alphabetic` is Unicode in Rust but is modelled here by the
ASCII-only `Char.isAlpha`; the two coincide exactly on ASCII characters
(code points below 128).  Accordingly, the one theorem that quantifies
over an arbitrary scanned character with a section open carries an
explicit ASCII hypothesis, and theorems about strings of digits, 'B',
'S' and ASCII punctuation are unaffected.  A non-'B'/'S' first
character aborts under both semantics (via the alphabetic test or the
flags-unset test), so the no-section-open behaviour is also
unaffected. -/
def ruleScan : List Char → Bool → Bool → List Nat → List Nat → Rule
  | [], _, _, bl, sl => { birth_list := bl, survival_list := sl }
  | ch :: rest, ib0, is0, bl, sl =>
    let fl : Bool × Bool :=
      if ch = 'B' then (true, false)
      else if ch = 'S' then (false, true)
      else (ib0, is0)
    if ch ≠ 'B' ∧ ch ≠ 'S' ∧ ch.isAlpha then Rule.default
    else if fl.1 = false ∧ fl.2 = false then Rule.default
    else if ch.isDigit then
      if fl.1 then ruleScan rest fl.1 fl.2 (bl ++ [ch.toNat - 48]) sl
      else if fl.2 then ruleScan rest fl.1 fl.2 bl (sl ++ [ch.toNat - 48])
      else Rule.default
    else ruleScan rest fl.1 fl.2 bl sl

/-- `Rule::from` of `app.rs` (named `parse` because `from` is a Lean
keyword). -/
def Rule.parse (s : String) : Rule :=
  ruleScan s.data false false [] []

/-- `Model::new` of `app.rs`.  The three `panic!` sites are modelled by
`none`; the `0..=max` construction loops build the all-`false` grid. -/
def Model.new (max_y max_x : Int) (birth_list survival_list : List Nat) (tickrate : Nat) :
    Option Model :=
  if birth_list.any (fun birth => 8 < birth) then none
  else if survival_list.any (fun survival => 8 < survival) then none
  else if max_x ≤ 0 ∨ max_y ≤ 0 then none
  else some
    { cells := List.replicate (max_y.toNat + 1) (List.replicate (max_x.toNat + 1) false)
      rule := { birth_list := birth_list, survival_list := survival_list }
      state := State.Editing
      current_coords := { x := 0, y := 0 }
      max_coords := { x := max_x, y := max_y }
      tickrate := tickrate }

/-- `Model::update_cell` of `app.rs`: the bounds check uses the
truncating `usize as i16` casts of the source; when it passes, the
unchecked indexed write is performed (and can panic). -/
def Model.update_cell (m : Model) (y x : Nat) (val : Bool) : Option Model :=
  if usizeAsI16 y ≤ m.max_coords.y ∧ usizeAsI16 x ≤ m.max_coords.x then
    match setCell m.cells y x val with
    | some g => some { m with cells := g }
    | none => none
  else
    some m

/-- `Model::rulestring` of `app.rs`. -/
def Model.rulestring (m : Model) : String :=
  let r1 := m.rule.birth_list.foldl
    (fun acc birth => acc ++ String.mk (Nat.toDigits 10 birth)) "B"
  let r2 := r1 ++ "/S"
  m.rule.survival_list.foldl
    (fun acc survival => acc ++ String.mk (Nat.toDigits 10 survival)) r2

/-- The neighbor-counting block of `Model::pass_tick` in `app.rs`:
`can_go_up` is `y > 0`, `can_go_down` is `(y as i16) < max_coords.y`,
`can_go_left` is `x > 0`, `can_go_right` is `(x as i16) < max_coords.x`,
and the guarded reads accumulate `active_neighbors`. -/
def countNeighbors (prev : List (List Bool)) (maxY maxX : Int) (y x : Nat) : Nat :=
  (if 0 < y then
      (if getCell prev (y - 1) x then 1 else 0)
    + (if 0 < x then (if getCell prev (y - 1) (x - 1) then 1 else 0) else 0)
    + (if usizeAsI16 x < maxX then (if getCell prev (y - 1) (x + 1) then 1 else 0) else 0)
   else 0)
  + (if usizeAsI16 y < maxY then
      (if getCell prev (y + 1) x then 1 else 0)
    + (if 0 < x then (if getCell prev (y + 1) (x - 1) then 1 else 0) else 0)
    + (if usizeAsI16 x < maxX then (if getCell prev (y + 1) (x + 1) then 1 else 0) else 0)
   else 0)
  + (if 0 < x then (if getCell prev y (x - 1) then 1 else 0) else 0)
  + (if usizeAsI16 x < maxX then (if getCell prev y (x + 1) then 1 else 0) else 0)

/-- The `for criterion in &self.rule.birth_list` loop of
`Model::pass_tick`: each matching criterion performs a (checked) write of
`true` at the current cell. -/
def applyBirths (n y x : Nat) : List Nat → Model → Option Model
  | [], m => some m
  | c :: rest, m =>
    (if n = c then m.update_cell y x true else some m).bind (applyBirths n y x rest)

/-- The per-cell body of `Model::pass_tick`'s nested loops. -/
def tick_cell (prev : List (List Bool)) (y x : Nat) (cell : Bool) (m : Model) : Option Model :=
  let n := countNeighbors prev m.max_coords.y m.max_coords.x y x
  if cell then
    let kill := m.rule.survival_list.foldl (fun k criterion => if n = criterion then false else k) true
    if kill then m.update_cell y x false else some m
  else
    applyBirths n y x m.rule.birth_list m

/-- The inner (`for (x, cell) in line.iter().enumerate()`) loop of
`Model::pass_tick`. -/
def tick_cells (prev : List (List Bool)) (y : Nat) : Nat → List Bool → Model → Option Model
  | _, [], m => some m
  | x, cell :: rest, m => (tick_cell prev y x cell m).bind (tick_cells prev y (x + 1) rest)

/-- The outer (`for (y, line) in cells_prev.iter().enumerate()`) loop of
`Model::pass_tick`. -/
def tick_rows (prev : List (List Bool)) : Nat → List (List Bool) → Model → Option Model
  | _, [], m => some m
  | y, line :: rest, m => (tick_cells prev y 0 line m).bind (tick_rows prev (y + 1) rest)

/-- `Model::pass_tick` of `app.rs`: early return unless `Running`, then
a full snapshot (`cells_prev`) is taken and iterated. -/
def Model.pass_tick (m : Model) : Option Model :=
  if m.state ≠ State.Running then some m
  else tick_rows m.cells 0 m.cells m

/-- Row-suffix part of `Model::insert_cells` (unchecked indexed writes). -/
def insertRow (y : Nat) : Nat → List Bool → List (List Bool) → Option (List (List Bool))
  | _, [], g => some g
  | x, cell :: rest, g => (setCell g y x cell).bind (insertRow y (x + 1) rest)

/-- Row iteration of `Model::insert_cells`. -/
def insertRows : Nat → List (List Bool) → List (List Bool) → Option (List (List Bool))
  | _, [], g => some g
  | y, line :: rest, g => (insertRow y 0 line g).bind (insertRows (y + 1) rest)

/-- `Model::insert_cells` of `app.rs`: writes the pattern into the grid
with unchecked `self.cells[y][x]` indexing (panic, i.e. `none`, when the
pattern exceeds the grid). -/
def Model.insert_cells (m : Model) (cells : List (List Bool)) : Option Model :=
  (insertRows 0 cells m.cells).map (fun g => { m with cells := g })

/-- The `Preset::Mold` literal pattern of `Model::load_preset`. -/
def moldCells : List (List Bool) :=
  [[false, false, false, true, true, false],
   [false, false, true, false, false, true],
   [true, false, false, true, false, true],
   [false, false, false, false, true, false],
   [true, false, true, true, false, false],
   [false, true, false, false, false, false]]

/-- The `Preset::Blinker` literal pattern of `Model::load_preset`. -/
def blinkerCells : List (List Bool) :=
  [[false, false, false],
   [true, true, true],
   [false, false, false]]

/-- Number of iterations of a Rust `0..=i` loop. -/
def rangeInclusiveLen (i : Int) : Nat :=
  if 0 ≤ i then i.toNat + 1 else 0

/-- `Model::load_preset` of `app.rs`.  The `thread_rng` coin flips of the
`Random` arm are supplied as the explicit `rng` argument (the generated
board has the grid's exact `0..=max` dimensions, as in the source). -/
def Model.load_preset (m : Model) (preset : Preset) (rng : Nat → Nat → Bool) : Option Model :=
  let cells :=
    match preset with
    | Preset.Mold => moldCells
    | Preset.Blinker => blinkerCells
    | Preset.Random =>
        (List.range (rangeInclusiveLen m.max_coords.y)).map
          (fun y => (List.range (rangeInclusiveLen m.max_coords.x)).map (fun x => rng y x))
    | Preset.Empty => [[false]]
  m.insert_cells cells

/-- `Model::toggle_current_cell` of `app.rs`: unchecked read and write of
`self.cells` at the cursor, with the `i16 as usize` casts of the source. -/
def Model.toggle_current_cell (m : Model) : Option Model :=
  let y := i16AsUsize m.current_coords.y
  let x := i16AsUsize m.current_coords.x
  match setCell m.cells y x (!(getCell m.cells y x)) with
  | some g => some { m with cells := g }
  | none => none

/-- `Model::toggle_editing_state` of `app.rs`. -/
def Model.toggle_editing_state (m : Model) : Model :=
  if m.state = State.Editing then { m with state := State.Running }
  else if m.state = State.Running then { m with state := State.Editing }
  else m

/-- `Model::quit` of `app.rs`. -/
def Model.quit (m : Model) : Model :=
  { m with state := State.Done }

/-- `Model::move_cursor` of `app.rs`.  The unchecked `i16` additions
`current + delta` are modelled with explicit two's-complement wrapping
(`i16Wrap`); they are exact whenever no overflow occurs. -/
def Model.move_cursor (m : Model) (x_delta y_delta : Int) : Model :=
  if m.state = State.Editing then
    let temp_x := i16Wrap (m.current_coords.x + x_delta)
    let new_x :=
      if temp_x ≤ 0 then 0
      else if m.max_coords.x ≤ temp_x then m.max_coords.x
      else temp_x
    let temp_y := i16Wrap (m.current_coords.y + y_delta)
    let new_y :=
      if temp_y ≤ 0 then 0
      else if m.max_coords.y ≤ temp_y then m.max_coords.y
      else temp_y
    { m with current_coords := { x := new_x, y := new_y } }
  else m

/-- `Model::move_cursor_in_direction` of `app.rs`. -/
def Model.move_cursor_in_direction (m : Model) (dir : Direction) : Model :=
  match dir with
  | Direction.Up => m.move_cursor 0 (-1)
  | Direction.Down => m.move_cursor 0 1
  | Direction.Left => m.move_cursor (-1) 0
  | Direction.Right => m.move_cursor 1 0

/-- `Model::update` of `app.rs`. -/
def Model.update (m : Model) : Message → Option Model
  | Message.Move dir => some (m.move_cursor_in_direction dir)
  | Message.ToggleCellState => m.toggle_current_cell
  | Message.ToggleEditing => some m.toggle_editing_state
  | Message.Idle => m.pass_tick
  | Message.Quit => some m.quit

/-- Well-formedness of a `Model` value, as guaranteed for every model the
Rust program constructs: the `i16` maxima are at least 1 (checked by
`Model::new`) and within `i16` range, the grid has `max_y + 1` rows of
`max_x + 1` cells, and the cursor is inside the bounds. -/
def wfModel (m : Model) : Prop :=
  1 ≤ m.max_coords.x ∧ m.max_coords.x ≤ 32767 ∧
  1 ≤ m.max_coords.y ∧ m.max_coords.y ≤ 32767 ∧
  dims m.cells (m.max_coords.y.toNat + 1) (m.max_coords.x.toNat + 1) ∧
  0 ≤ m.current_coords.x ∧ m.current_coords.x ≤ m.max_coords.x ∧
  0 ≤ m.current_coords.y ∧ m.current_coords.y ≤ m.max_coords.y

instance (m : Model) : Decidable (wfModel m) := by
  unfold wfModel; infer_instance

/-! ### Specification-side definitions

The following definitions are written from the words of the
specification (not from the code); the refinement claims compare the
embedded code against them. -/

/-- Spec §4.3: liveness of a Moore-neighborhood position; a position
outside the grid is simply absent from the count. -/
def aliveAt (g : List (List Bool)) (rows cols : Nat) (yi xi : Int) : Bool :=
  if 0 ≤ yi ∧ yi < (rows : Int) ∧ 0 ≤ xi ∧ xi < (cols : Int) then
    getCell g yi.toNat xi.toNat
  else false

/-- Spec §4.3: the count of living neighbors among the up-to-8
Moore-neighborhood positions of `(y, x)` (each of the 8 offsets
contributes 1 exactly when it lands on a living in-bounds cell). -/
def specNeighborCount (g : List (List Bool)) (rows cols y x : Nat) : Nat :=
  (if aliveAt g rows cols ((y : Int) - 1) ((x : Int) - 1) then 1 else 0)
  + (if aliveAt g rows cols ((y : Int) - 1) (x : Int) then 1 else 0)
  + (if aliveAt g rows cols ((y : Int) - 1) ((x : Int) + 1) then 1 else 0)
  + (if aliveAt g rows cols (y : Int) ((x : Int) - 1) then 1 else 0)
  + (if aliveAt g rows cols (y : Int) ((x : Int) + 1) then 1 else 0)
  + (if aliveAt g rows cols ((y : Int) + 1) ((x : Int) - 1) then 1 else 0)
  + (if aliveAt g rows cols ((y : Int) + 1) (x : Int) then 1 else 0)
  + (if aliveAt g rows cols ((y : Int) + 1) ((x : Int) + 1) then 1 else 0)

/-- Spec §4.3: the per-cell transition, computed solely from the previous
generation `g`: a live cell stays alive iff its neighbor count is a
member of the survival list; a dead cell becomes alive iff the count is a
member of the birth list. -/
def specNextCell (g : List (List Bool)) (rule : Rule) (rows cols y x : Nat) : Bool :=
  let n := specNeighborCount g rows cols y x
  if getCell g y x then decide (n ∈ rule.survival_list) else decide (n ∈ rule.birth_list)

/-- Spec §4.3: the whole next generation of a rectangular grid, each cell
computed independently from the previous generation. -/
def specNextGrid (g : List (List Bool)) (rule : Rule) : List (List Bool) :=
  (List.range g.length).map (fun y =>
    (List.range (g.getD 0 []).length).map (fun x =>
      specNextCell g rule g.length (g.getD 0 []).length y x))

/-- Spec §4.4: the independent per-axis clamped cursor step — a proposed
value `cur + delta` is clamped to `0` when `≤ 0`, to the axis maximum
when `≥` that maximum, and assigned directly otherwise. -/
def clampAxis (cur delta mx : Int) : Int :=
  if cur + delta ≤ 0 then 0
  else if mx ≤ cur + delta then mx
  else cur + delta

/-- Spec §4.4: the signed `(dx, dy)` step of each direction:
Up = (0,-1), Down = (0,1), Left = (-1,0), Right = (1,0). -/
def dirDelta : Direction → Int × Int
  | Direction.Up => (0, -1)
  | Direction.Down => (0, 1)
  | Direction.Left => (-1, 0)
  | Direction.Right => (1, 0)

/-- The ten decimal digit characters. -/
def rulestringDigits : List Char :=
  ['0', '1', '2', '3', '4', '5', '6', '7', '8', '9']

/-- The numeric value of a digit character (`char::to_digit(10)` on a
decimal digit). -/
def digitVal (c : Char) : Nat :=
  c.toNat - 48

/-- A canonical rulestring in the sense of C8: exactly
`B<digits>/S<digits>`, with both digit lists sorted strictly ascending
(i.e. ascending and duplicate-free). -/
def IsCanonicalRulestring (s : String) : Prop :=
  ∃ ds1 ds2 : List Char,
    s.data = 'B' :: ds1 ++ '/' :: 'S' :: ds2 ∧
    (∀ c ∈ ds1, c ∈ rulestringDigits) ∧ (∀ c ∈ ds2, c ∈ rulestringDigits) ∧
    List.Chain' (· < ·) ds1 ∧ List.Chain' (· < ·) ds2

/-- The net effect of the per-cell body of `Model::pass_tick` on the
stored value `old` of the visited cell (a helper for the loop proofs):
a surviving live cell and a non-born dead cell are not written at all,
a dying live cell is written `false`, a born dead cell is written
`true`. -/
def cellWrite (prev : List (List Bool)) (rule : Rule) (maxY maxX : Int) (y x : Nat)
    (old : Bool) : Bool :=
  let n := countNeighbors prev maxY maxX y x
  if getCell prev y x then
    (if rule.survival_list.contains n then old else false)
  else
    (if rule.birth_list.contains n then true else old)

/-! ### Concrete models used by witnesses, counterexamples and sanity
checks -/

/-- A 5×5 Running model holding the horizontal blinker of the
repository's `pass_tick_running_blinker` test. -/
def blinkModel : Model :=
  { cells := [[false, false, false, false, false],
              [false, false, false, false, false],
              [false, true, true, true, false],
              [false, false, false, false, false],
              [false, false, false, false, false]]
    rule := { birth_list := [3], survival_list := [2, 3] }
    state := State.Running
    current_coords := { x := 0, y := 0 }
    max_coords := { x := 4, y := 4 }
    tickrate := 100 }

/-- A terminated (Done) 4×4 model with the cursor at `(1, 1)`. -/
def doneModel : Model :=
  { cells := List.replicate 4 (List.replicate 4 false)
    rule := Rule.default
    state := State.Done
    current_coords := { x := 1, y := 1 }
    max_coords := { x := 3, y := 3 }
    tickrate := 100 }

/-- A 2×2 Editing model (maximum coordinates `(1, 1)`), smaller than the
6×6 `Mold` preset in both dimensions. -/
def tinyModel : Model :=
  { cells := List.replicate 2 (List.replicate 2 false)
    rule := Rule.default
    state := State.Editing
    current_coords := { x := 0, y := 0 }
    max_coords := { x := 1, y := 1 }
    tickrate := 100 }

/-- A 5 rows × 6 columns Editing model, as in the repository's
`load_preset` test. -/
def wideModel : Model :=
  { cells := List.replicate 5 (List.replicate 6 false)
    rule := { birth_list := [3], survival_list := [2, 3] }
    state := State.Editing
    current_coords := { x := 0, y := 0 }
    max_coords := { x := 5, y := 4 }
    tickrate := 100 }

/-- The model `Model::new 4 4 [3] [2, 3] 100` constructs. -/
def newModel44 : Model :=
  { cells := List.replicate 5 (List.replicate 5 false)
    rule := { birth_list := [3], survival_list := [2, 3] }
    state := State.Editing
    current_coords := { x := 0, y := 0 }
    max_coords := { x := 4, y := 4 }
    tickrate := 100 }

/-- An Editing model whose horizontal axis maximum is the `i16` maximum
`32767`, with the cursor sitting on that maximum. -/
def edgeModel : Model :=
  { cells := List.replicate 2 (List.replicate 32768 false)
    rule := Rule.default
    state := State.Editing
    current_coords := { x := 32767, y := 0 }
    max_coords := { x := 32767, y := 1 }
    tickrate := 100 }

/-! ### Basic lemmas: integer casts and grid primitives -/

lemma usizeAsI16_eq_of_lt {n : Nat} (h : n < 32768) : usizeAsI16 n = (n : Int) := by
  unfold usizeAsI16
  rw [Nat.mod_eq_of_lt (by omega), if_pos h]

lemma i16Wrap_eq_of_bounds {i : Int} (h1 : -32768 ≤ i) (h2 : i ≤ 32767) : i16Wrap i = i := by
  unfold i16Wrap
  rw [Int.emod_eq_of_lt (by omega) (by omega)]
  ring

lemma getCell_def (g : List (List Bool)) (y x : Nat) :
    getCell g y x = (g.getD y []).getD x false := rfl

lemma getD_set_self {α : Type} {l : List α} {i : Nat} (a d : α) (h : i < l.length) :
    (l.set i a).getD i d = a := by
  rw [List.getD_eq_getElem?_getD, List.getElem?_set_self h]
  rfl

lemma getD_set_ne {α : Type} {l : List α} {i j : Nat} (a d : α) (h : i ≠ j) :
    (l.set i a).getD j d = l.getD j d := by
  rw [List.getD_eq_getElem?_getD, List.getElem?_set_ne h, ← List.getD_eq_getElem?_getD]

lemma setCell_some {g : List (List Bool)} {R C : Nat} (hd : dims g R C) {y x : Nat}
    (hy : y < R) (hx : x < C) (v : Bool) :
    ∃ g', setCell g y x v = some g' ∧ dims g' R C ∧
      ∀ y' x', getCell g' y' x' = if y' = y ∧ x' = x then v else getCell g y' x' := by
  obtain ⟨hlen, hrow⟩ := hd
  have hyg : y < g.length := by omega
  have hxg : x < (g.getD y []).length := by rw [hrow y hy]; exact hx
  refine ⟨g.set y ((g.getD y []).set x v), ?_, ⟨?_, ?_⟩, ?_⟩
  · unfold setCell
    rw [if_pos ⟨hyg, hxg⟩]
  · simpa using hlen
  · intro i hi
    by_cases hiy : i = y
    · subst hiy
      rw [getD_set_self _ _ hyg, List.length_set]
      exact hrow i hi
    · rw [getD_set_ne _ _ (fun hh => hiy hh.symm)]
      exact hrow i hi
  · intro y' x'
    by_cases hy' : y' = y
    · subst hy'
      rw [getCell_def, getD_set_self _ _ hyg]
      by_cases hx' : x' = x
      · subst hx'
        rw [getD_set_self _ _ hxg, if_pos ⟨rfl, rfl⟩]
      · rw [getD_set_ne _ _ (fun hh => hx' hh.symm), if_neg (by tauto)]
        rfl
    · rw [getCell_def, getD_set_ne _ _ (fun hh => hy' hh.symm), if_neg (by tauto)]
      rfl

lemma setCell_none {g : List (List Bool)} {y x : Nat}
    (h : ¬(y < g.length ∧ x < (g.getD y []).length)) :
    setCell g y x v = none := by
  unfold setCell
  rw [if_neg h]

/-- In-bounds behaviour of `Model::update_cell` on a rectangular grid
whose maxima agree with the grid (both casts are exact and the checked
write succeeds). -/
lemma update_cell_inbounds {m : Model} {R C : Nat}
    (hmx : m.max_coords.x = (C : Int) - 1) (hmy : m.max_coords.y = (R : Int) - 1)
    (hd : dims m.cells R C) (hR : R ≤ 32768) (hC : C ≤ 32768)
    {y x : Nat} (hy : y < R) (hx : x < C) (v : Bool) :
    ∃ g', m.update_cell y x v = some { m with cells := g' } ∧ dims g' R C ∧
      ∀ y' x', getCell g' y' x' = if y' = y ∧ x' = x then v else getCell m.cells y' x' := by
  obtain ⟨g', hset, hd', hpt⟩ := setCell_some hd hy hx v
  refine ⟨g', ?_, hd', hpt⟩
  unfold Model.update_cell
  rw [if_pos ⟨by rw [usizeAsI16_eq_of_lt (by omega), hmy]; omega,
              by rw [usizeAsI16_eq_of_lt (by omega), hmx]; omega⟩, hset]

/-! ### Lemmas about the per-cell body of `pass_tick` -/

/-- The `kill_cell` loop of `pass_tick` computes non-membership of the
neighbor count in the survival list. -/
lemma foldl_kill_eq (n : Nat) : ∀ (l : List Nat) (b : Bool),
    l.foldl (fun k criterion => if n = criterion then false else k) b
      = (b && !(l.contains n))
  | [], b => by simp
  | c :: rest, b => by
    rw [List.foldl_cons, foldl_kill_eq n rest]
    by_cases hnc : n = c
    · subst hnc
      simp
    · simp [hnc, Ne.symm hnc]

/-- The birth loop of `pass_tick` leaves the model intact except that the
visited cell is set to `true` exactly when the count is a member of the
birth list. -/
lemma applyBirths_sound {R C : Nat} (hR : R ≤ 32768) (hC : C ≤ 32768)
    (n y x : Nat) (hy : y < R) (hx : x < C) :
    ∀ (bl : List Nat) (m : Model),
      m.max_coords.x = (C : Int) - 1 → m.max_coords.y = (R : Int) - 1 →
      dims m.cells R C →
      ∃ g', applyBirths n y x bl m = some { m with cells := g' } ∧ dims g' R C ∧
        ∀ y' x', getCell g' y' x' =
          if y' = y ∧ x' = x ∧ bl.contains n then true else getCell m.cells y' x'
  | [], m, _, _, hd => by
    refine ⟨m.cells, by simp [applyBirths], hd, ?_⟩
    intro y' x'
    simp
  | c :: rest, m, hmx, hmy, hd => by
    unfold applyBirths
    by_cases hnc : n = c
    · obtain ⟨g1, hstep, hd1, hpt1⟩ := update_cell_inbounds hmx hmy hd hR hC hy hx true
      rw [if_pos hnc, hstep]
      obtain ⟨g', hrest, hd', hpt'⟩ :=
        applyBirths_sound hR hC n y x hy hx rest { m with cells := g1 } hmx hmy hd1
      refine ⟨g', by simpa using hrest, hd', ?_⟩
      intro y' x'
      rw [hpt', hpt1]
      by_cases hpos : y' = y ∧ x' = x
      · simp [hpos, hnc]
      · rw [if_neg (by tauto), if_neg hpos, if_neg (by tauto)]
    · rw [if_neg hnc]
      obtain ⟨g', hrest, hd', hpt'⟩ := applyBirths_sound hR hC n y x hy hx rest m hmx hmy hd
      refine ⟨g', by simpa using hrest, hd', ?_⟩
      intro y' x'
      rw [hpt']
      have hcc : (c :: rest).contains n = rest.contains n := by
        simp [List.contains_cons, hnc]
      rw [hcc]

/-- The per-cell body of `pass_tick` performs exactly the `cellWrite`
transformation at the visited cell and touches nothing else. -/
lemma tick_cell_sound {R C : Nat} (hR : R ≤ 32768) (hC : C ≤ 32768)
    (P : List (List Bool)) {y x : Nat} (hy : y < R) (hx : x < C)
    {cell : Bool} (hcell : cell = getCell P y x)
    (m : Model)
    (hmx : m.max_coords.x = (C : Int) - 1) (hmy : m.max_coords.y = (R : Int) - 1)
    (hd : dims m.cells R C) :
    ∃ g', tick_cell P y x cell m = some { m with cells := g' } ∧ dims g' R C ∧
      ∀ y' x', getCell g' y' x' =
        if y' = y ∧ x' = x then
          cellWrite P m.rule ((R : Int) - 1) ((C : Int) - 1) y x (getCell m.cells y x)
        else getCell m.cells y' x' := by
  unfold tick_cell cellWrite
  rw [hmx, hmy, ← hcell]
  by_cases hc : cell = true
  · rw [hc]
    simp only [if_true]
    rw [foldl_kill_eq]
    by_cases hsurv :
        (m.rule.survival_list.contains
          (countNeighbors P ((R : Int) - 1) ((C : Int) - 1) y x)) = true
    · rw [hsurv]
      refine ⟨m.cells, by simp, hd, ?_⟩
      intro y' x'
      by_cases hpos : y' = y ∧ x' = x
      · obtain ⟨h1, h2⟩ := hpos
        subst h1; subst h2
        simp
      · simp [hpos]
    · rw [Bool.not_eq_true] at hsurv
      rw [hsurv]
      obtain ⟨g', hstep, hd', hpt'⟩ := update_cell_inbounds hmx hmy hd hR hC hy hx false
      refine ⟨g', by simpa using hstep, hd', ?_⟩
      intro y' x'
      rw [hpt']
      by_cases hpos : y' = y ∧ x' = x
      · obtain ⟨h1, h2⟩ := hpos
        subst h1; subst h2
        simp [hsurv]
      · simp [hpos]
  · rw [Bool.not_eq_true] at hc
    rw [hc]
    simp only [Bool.false_eq_true, if_false]
    obtain ⟨g', hstep, hd', hpt'⟩ :=
      applyBirths_sound hR hC (countNeighbors P ((R : Int) - 1) ((C : Int) - 1) y x)
        y x hy hx m.rule.birth_list m hmx hmy hd
    refine ⟨g', hstep, hd', ?_⟩
    intro y' x'
    rw [hpt']
    by_cases hb :
        (m.rule.birth_list.contains
          (countNeighbors P ((R : Int) - 1) ((C : Int) - 1) y x)) = true
    · by_cases hpos : y' = y ∧ x' = x
      · rw [if_pos ⟨hpos.1, hpos.2, hb⟩, if_pos hpos, if_pos hb]
      · rw [if_neg (by tauto), if_neg hpos]
    · rw [Bool.not_eq_true] at hb
      have hnb : countNeighbors P ((R : Int) - 1) ((C : Int) - 1) y x ∉ m.rule.birth_list := by
        simpa using hb
      by_cases hpos : y' = y ∧ x' = x
      · rw [if_neg (by simp [hnb]), if_pos hpos, if_neg (by simp [hnb]), hpos.1, hpos.2]
      · rw [if_neg (by tauto), if_neg hpos]

/-- The inner loop of `pass_tick` applies `cellWrite` to every cell of
row `y` from column `x` on, and touches nothing else. -/
lemma tick_cells_sound {R C : Nat} (hR : R ≤ 32768) (hC : C ≤ 32768)
    (P : List (List Bool)) (rule : Rule) {y : Nat} (hy : y < R) :
    ∀ (line : List Bool) (x : Nat) (m : Model),
      m.rule = rule →
      m.max_coords.x = (C : Int) - 1 → m.max_coords.y = (R : Int) - 1 →
      dims m.cells R C →
      x + line.length = C →
      (∀ i, i < line.length → line.getD i false = getCell P y (x + i)) →
      ∃ g', tick_cells P y x line m = some { m with cells := g' } ∧ dims g' R C ∧
        ∀ y' x', getCell g' y' x' =
          if y' = y ∧ x ≤ x' ∧ x' < C then
            cellWrite P rule ((R : Int) - 1) ((C : Int) - 1) y x' (getCell m.cells y x')
          else getCell m.cells y' x'
  | [], x, m, hrule, hmx, hmy, hd, hlen, _ => by
    refine ⟨m.cells, by simp [tick_cells], hd, ?_⟩
    intro y' x'
    have hxC : x = C := by simpa using hlen
    rw [if_neg (by omega)]
  | cell :: rest, x, m, hrule, hmx, hmy, hd, hlen, hline => by
    have hxC : x < C := by
      simp at hlen
      omega
    have hcell : cell = getCell P y x := by
      have h0 := hline 0 (by simp)
      simpa using h0
    obtain ⟨g1, hstep, hd1, hpt1⟩ := tick_cell_sound hR hC P hy hxC hcell m hmx hmy hd
    unfold tick_cells
    rw [hstep]
    have hrule1 : ({ m with cells := g1 } : Model).rule = rule := hrule
    obtain ⟨g', hrest, hd', hpt'⟩ :=
      tick_cells_sound hR hC P rule hy rest (x + 1) { m with cells := g1 }
        hrule1 hmx hmy hd1
        (by simp at hlen ⊢; omega)
        (by
          intro i hi
          have h1 := hline (i + 1) (by simp; omega)
          simpa [Nat.add_assoc, Nat.add_comm 1 i] using h1)
    refine ⟨g', by simpa using hrest, hd', ?_⟩
    intro y' x'
    rw [hpt']
    by_cases h1 : y' = y ∧ x + 1 ≤ x' ∧ x' < C
    · rw [if_pos h1, if_pos ⟨h1.1, by omega, h1.2.2⟩]
      have hne : getCell g1 y x' = getCell m.cells y x' := by
        rw [hpt1, if_neg (by omega)]
      rw [show ({ m with cells := g1 } : Model).cells = g1 from rfl, hne]
    · by_cases h2 : y' = y ∧ x' = x
      · rw [if_neg h1, show ({ m with cells := g1 } : Model).cells = g1 from rfl,
            hpt1 y' x', if_pos h2, if_pos ⟨h2.1, by omega, by omega⟩, h2.2, hrule]
      · rw [if_neg h1, show ({ m with cells := g1 } : Model).cells = g1 from rfl,
            hpt1 y' x', if_neg h2, if_neg (by omega)]

/-- The outer loop of `pass_tick` applies `cellWrite` to every cell of
the rows from `y` on, and touches nothing else. -/
lemma tick_rows_sound {R C : Nat} (hR : R ≤ 32768) (hC : C ≤ 32768)
    (P : List (List Bool)) (rule : Rule) (hdP : dims P R C) :
    ∀ (rows : List (List Bool)) (y : Nat) (m : Model),
      rows = P.drop y →
      y + rows.length = R →
      m.rule = rule →
      m.max_coords.x = (C : Int) - 1 → m.max_coords.y = (R : Int) - 1 →
      dims m.cells R C →
      ∃ g', tick_rows P y rows m = some { m with cells := g' } ∧ dims g' R C ∧
        ∀ y' x', getCell g' y' x' =
          if y ≤ y' ∧ y' < R ∧ x' < C then
            cellWrite P rule ((R : Int) - 1) ((C : Int) - 1) y' x' (getCell m.cells y' x')
          else getCell m.cells y' x'
  | [], y, m, _, hlen, _, _, _, hd => by
    refine ⟨m.cells, by simp [tick_rows], hd, ?_⟩
    intro y' x'
    have hyR : y = R := by simpa using hlen
    rw [if_neg (by omega)]
  | line :: rest, y, m, hdrop, hlen, hrule, hmx, hmy, hd => by
    have hyR : y < R := by
      simp at hlen
      omega
    have hyP : y < P.length := by
      rw [hdP.1]
      exact hyR
    rw [List.drop_eq_getElem_cons hyP] at hdrop
    obtain ⟨hl, hr⟩ := List.cons_eq_cons.mp hdrop
    have hrowP : P.getD y [] = P[y] := List.getD_eq_getElem P [] hyP
    have hlenline : 0 + line.length = C := by
      rw [hl, ← hrowP]
      simpa using hdP.2 y hyR
    obtain ⟨g1, hstep, hd1, hpt1⟩ :=
      tick_cells_sound hR hC P rule hyR line 0 m hrule hmx hmy hd hlenline
        (by
          intro i hi
          rw [hl, getCell_def, hrowP]
          simp)
    unfold tick_rows
    rw [hstep]
    obtain ⟨g', hrest, hd', hpt'⟩ :=
      tick_rows_sound hR hC P rule hdP rest (y + 1) { m with cells := g1 }
        hr (by simp at hlen ⊢; omega) hrule hmx hmy hd1
    refine ⟨g', by simpa using hrest, hd', ?_⟩
    intro y' x'
    rw [hpt']
    by_cases h1 : y + 1 ≤ y' ∧ y' < R ∧ x' < C
    · rw [if_pos h1, if_pos ⟨by omega, h1.2.1, h1.2.2⟩]
      have hne : getCell g1 y' x' = getCell m.cells y' x' := by
        rw [hpt1, if_neg (by omega)]
      rw [show ({ m with cells := g1 } : Model).cells = g1 from rfl, hne]
    · by_cases h2 : y' = y ∧ x' < C
      · rw [if_neg h1, show ({ m with cells := g1 } : Model).cells = g1 from rfl,
            hpt1 y' x', if_pos ⟨h2.1, by omega, h2.2⟩, if_pos ⟨by omega, by omega, h2.2⟩,
            h2.1]
      · rw [if_neg h1, show ({ m with cells := g1 } : Model).cells = g1 from rfl,
            hpt1 y' x', if_neg (by omega), if_neg (by omega)]

/-! ### The neighbor count of the code equals the specification count -/

lemma aliveAt_toNat {g : List (List Bool)} {R C : Nat} {yi xi : Int} {yn xn : Nat}
    (hcond : 0 ≤ yi ∧ yi < (R : Int) ∧ 0 ≤ xi ∧ xi < (C : Int))
    (hyn : yi.toNat = yn) (hxn : xi.toNat = xn) :
    aliveAt g R C yi xi = getCell g yn xn := by
  unfold aliveAt
  rw [if_pos hcond, hyn, hxn]

lemma aliveAt_false {g : List (List Bool)} {R C : Nat} {yi xi : Int}
    (hcond : ¬(0 ≤ yi ∧ yi < (R : Int) ∧ 0 ≤ xi ∧ xi < (C : Int))) :
    aliveAt g R C yi xi = false := by
  unfold aliveAt
  rw [if_neg hcond]

lemma nbrUL {g : List (List Bool)} {R C y x : Nat} (hy : y < R) (hx : x < C) :
    (if aliveAt g R C ((y : Int) - 1) ((x : Int) - 1) then 1 else 0)
      = (if 0 < y ∧ 0 < x then (if getCell g (y - 1) (x - 1) then 1 else 0) else 0) := by
  by_cases h : 0 < y ∧ 0 < x
  · rw [aliveAt_toNat (by omega) (show (((y : Int) - 1) : Int).toNat = y - 1 by omega)
        (show (((x : Int) - 1) : Int).toNat = x - 1 by omega), if_pos h]
  · rw [aliveAt_false (by omega), if_neg h]
    simp

lemma nbrU {g : List (List Bool)} {R C y x : Nat} (hy : y < R) (hx : x < C) :
    (if aliveAt g R C ((y : Int) - 1) (x : Int) then 1 else 0)
      = (if 0 < y then (if getCell g (y - 1) (x) then 1 else 0) else 0) := by
  by_cases h : 0 < y
  · rw [aliveAt_toNat (by omega) (show (((y : Int) - 1) : Int).toNat = y - 1 by omega)
        (show ((x : Int) : Int).toNat = x by omega), if_pos h]
  · rw [aliveAt_false (by omega), if_neg h]
    simp

lemma nbrUR {g : List (List Bool)} {R C y x : Nat} (hy : y < R) (hx : x < C) :
    (if aliveAt g R C ((y : Int) - 1) ((x : Int) + 1) then 1 else 0)
      = (if 0 < y ∧ (x : Int) < (C : Int) - 1 then (if getCell g (y - 1) (x + 1) then 1 else 0) else 0) := by
  by_cases h : 0 < y ∧ (x : Int) < (C : Int) - 1
  · rw [aliveAt_toNat (by omega) (show (((y : Int) - 1) : Int).toNat = y - 1 by omega)
        (show (((x : Int) + 1) : Int).toNat = x + 1 by omega), if_pos h]
  · rw [aliveAt_false (by omega), if_neg h]
    simp

lemma nbrL {g : List (List Bool)} {R C y x : Nat} (hy : y < R) (hx : x < C) :
    (if aliveAt g R C (y : Int) ((x : Int) - 1) then 1 else 0)
      = (if 0 < x then (if getCell g (y) (x - 1) then 1 else 0) else 0) := by
  by_cases h : 0 < x
  · rw [aliveAt_toNat (by omega) (show ((y : Int) : Int).toNat = y by omega)
        (show (((x : Int) - 1) : Int).toNat = x - 1 by omega), if_pos h]
  · rw [aliveAt_false (by omega), if_neg h]
    simp

lemma nbrR {g : List (List Bool)} {R C y x : Nat} (hy : y < R) (hx : x < C) :
    (if aliveAt g R C (y : Int) ((x : Int) + 1) then 1 else 0)
      = (if (x : Int) < (C : Int) - 1 then (if getCell g (y) (x + 1) then 1 else 0) else 0) := by
  by_cases h : (x : Int) < (C : Int) - 1
  · rw [aliveAt_toNat (by omega) (show ((y : Int) : Int).toNat = y by omega)
        (show (((x : Int) + 1) : Int).toNat = x + 1 by omega), if_pos h]
  · rw [aliveAt_false (by omega), if_neg h]
    simp

lemma nbrDL {g : List (List Bool)} {R C y x : Nat} (hy : y < R) (hx : x < C) :
    (if aliveAt g R C ((y : Int) + 1) ((x : Int) - 1) then 1 else 0)
      = (if (y : Int) < (R : Int) - 1 ∧ 0 < x then (if getCell g (y + 1) (x - 1) then 1 else 0) else 0) := by
  by_cases h : (y : Int) < (R : Int) - 1 ∧ 0 < x
  · rw [aliveAt_toNat (by omega) (show (((y : Int) + 1) : Int).toNat = y + 1 by omega)
        (show (((x : Int) - 1) : Int).toNat = x - 1 by omega), if_pos h]
  · rw [aliveAt_false (by omega), if_neg h]
    simp

lemma nbrD {g : List (List Bool)} {R C y x : Nat} (hy : y < R) (hx : x < C) :
    (if aliveAt g R C ((y : Int) + 1) (x : Int) then 1 else 0)
      = (if (y : Int) < (R : Int) - 1 then (if getCell g (y + 1) (x) then 1 else 0) else 0) := by
  by_cases h : (y : Int) < (R : Int) - 1
  · rw [aliveAt_toNat (by omega) (show (((y : Int) + 1) : Int).toNat = y + 1 by omega)
        (show ((x : Int) : Int).toNat = x by omega), if_pos h]
  · rw [aliveAt_false (by omega), if_neg h]
    simp

lemma nbrDR {g : List (List Bool)} {R C y x : Nat} (hy : y < R) (hx : x < C) :
    (if aliveAt g R C ((y : Int) + 1) ((x : Int) + 1) then 1 else 0)
      = (if (y : Int) < (R : Int) - 1 ∧ (x : Int) < (C : Int) - 1 then (if getCell g (y + 1) (x + 1) then 1 else 0) else 0) := by
  by_cases h : (y : Int) < (R : Int) - 1 ∧ (x : Int) < (C : Int) - 1
  · rw [aliveAt_toNat (by omega) (show (((y : Int) + 1) : Int).toNat = y + 1 by omega)
        (show (((x : Int) + 1) : Int).toNat = x + 1 by omega), if_pos h]
  · rw [aliveAt_false (by omega), if_neg h]
    simp

/-- The guarded neighbor-accumulation of `pass_tick` computes exactly
the specification's count of living in-bounds Moore neighbors. -/
lemma countNeighbors_eq_spec {R C : Nat} (hR : R ≤ 32768) (hC : C ≤ 32768)
    (g : List (List Bool)) {y x : Nat} (hy : y < R) (hx : x < C) :
    countNeighbors g ((R : Int) - 1) ((C : Int) - 1) y x = specNeighborCount g R C y x := by
  unfold countNeighbors specNeighborCount
  rw [usizeAsI16_eq_of_lt (show y < 32768 by omega),
      usizeAsI16_eq_of_lt (show x < 32768 by omega),
      nbrUL hy hx, nbrU hy hx, nbrUR hy hx, nbrL hy hx, nbrR hy hx,
      nbrDL hy hx, nbrD hy hx, nbrDR hy hx]
  by_cases gu : 0 < y <;> by_cases gd : (y : Int) < (R : Int) - 1 <;>
    by_cases gl : 0 < x <;> by_cases gr : (x : Int) < (C : Int) - 1 <;>
    first
      | (simp [gu, gd, gl, gr]; ring)
      | simp [gu, gd, gl, gr]
      | ring

/-- At the snapshot value of the visited cell, the code's per-cell
transformation agrees with the specification's transition rule. -/
lemma cellWrite_eq_specNextCell {R C : Nat} (hR : R ≤ 32768) (hC : C ≤ 32768)
    (P : List (List Bool)) (rule : Rule) {y x : Nat} (hy : y < R) (hx : x < C) :
    cellWrite P rule ((R : Int) - 1) ((C : Int) - 1) y x (getCell P y x)
      = specNextCell P rule R C y x := by
  unfold cellWrite specNextCell
  rw [countNeighbors_eq_spec hR hC P hy hx]
  by_cases hc : getCell P y x = true
  · rw [hc]
    by_cases hs : specNeighborCount P R C y x ∈ rule.survival_list
    · simp [hs]
    · simp [hs]
  · rw [Bool.not_eq_true] at hc
    rw [hc]
    by_cases hb : specNeighborCount P R C y x ∈ rule.birth_list
    · simp [hb]
    · simp [hb]

/-- Two grids of the same dimensions with the same cells are equal. -/
lemma grid_ext {g1 g2 : List (List Bool)} {R C : Nat}
    (h1 : dims g1 R C) (h2 : dims g2 R C)
    (h : ∀ y x, y < R → x < C → getCell g1 y x = getCell g2 y x) : g1 = g2 := by
  apply List.ext_getElem (by rw [h1.1, h2.1])
  intro y hy1 hy2
  have hyR : y < R := by
    rw [← h1.1]
    exact hy1
  have hrow1 : g1.getD y [] = g1[y] := List.getD_eq_getElem g1 [] hy1
  have hrow2 : g2.getD y [] = g2[y] := List.getD_eq_getElem g2 [] hy2
  apply List.ext_getElem
  · rw [← hrow1, ← hrow2, h1.2 y hyR, h2.2 y hyR]
  · intro x hx1 hx2
    have hxC : x < C := by
      rw [← h1.2 y hyR, hrow1]
      exact hx1
    have e1 : getCell g1 y x = g1[y][x] := by
      rw [getCell_def, hrow1]
      exact List.getD_eq_getElem _ _ hx1
    have e2 : getCell g2 y x = g2[y][x] := by
      rw [getCell_def, hrow2]
      exact List.getD_eq_getElem _ _ hx2
    rw [← e1, ← e2]
    exact h y x hyR hxC

/-- `specNextGrid` has the dimensions of its (rectangular) input and
holds `specNextCell` at every position. -/
lemma specNextGrid_sound {P : List (List Bool)} {R C : Nat} (hd : dims P R C) (hR0 : 0 < R)
    (rule : Rule) :
    dims (specNextGrid P rule) R C ∧
    ∀ y x, y < R → x < C → getCell (specNextGrid P rule) y x = specNextCell P rule R C y x := by
  have hlen : P.length = R := hd.1
  have hC0 : (P.getD 0 []).length = C := hd.2 0 hR0
  unfold specNextGrid
  rw [hlen, hC0]
  have hroweq : ∀ y, y < R →
      ((List.range R).map fun yy => (List.range C).map
        fun xx => specNextCell P rule R C yy xx).getD y []
        = (List.range C).map (fun xx => specNextCell P rule R C y xx) := by
    intro y hy
    rw [List.getD_eq_getElem?_getD, List.getElem?_map, List.getElem?_range hy]
    rfl
  refine ⟨⟨by simp, ?_⟩, ?_⟩
  · intro i hi
    rw [hroweq i hi]
    simp
  · intro y x hy hx
    rw [getCell_def, hroweq y hy, List.getD_eq_getElem?_getD, List.getElem?_map,
        List.getElem?_range hx]
    rfl

/-! ### Claim theorems -/

/-- C1: for every model whose mode is Running, delivering the Idle
message performs exactly one generation step in which each cell's new
value is computed solely from the previous generation's grid: a live
cell stays alive iff its count of in-bounds Moore neighbors (positions
outside the grid absent from the count, no wraparound) is a member of
the survival list, and a dead cell becomes alive iff that count is a
member of the birth list. -/
theorem c1_idle_generation_step (m : Model) (hwf : wfModel m)
    (hrun : m.state = State.Running) :
    m.update Message.Idle = some { m with cells := specNextGrid m.cells m.rule } := by
  obtain ⟨hx1, hx2, hy1, hy2, hdm, _, _, _, _⟩ := hwf
  set R := m.max_coords.y.toNat + 1 with hR
  set C := m.max_coords.x.toNat + 1 with hC
  have hRle : R ≤ 32768 := by omega
  have hCle : C ≤ 32768 := by omega
  have hmx : m.max_coords.x = (C : Int) - 1 := by omega
  have hmy : m.max_coords.y = (R : Int) - 1 := by omega
  show m.pass_tick = _
  unfold Model.pass_tick
  rw [if_neg (by rw [hrun]; simp)]
  obtain ⟨g', hrows, hd', hpt'⟩ :=
    tick_rows_sound hRle hCle m.cells m.rule hdm m.cells 0 m
      (List.drop_zero m.cells).symm (by simp [hdm.1]) rfl hmx hmy hdm
  rw [hrows]
  have hgrid : g' = specNextGrid m.cells m.rule := by
    apply grid_ext hd' (specNextGrid_sound hdm (by omega) m.rule).1
    intro y x hy hx
    rw [hpt' y x, if_pos ⟨Nat.zero_le y, hy, hx⟩,
        (specNextGrid_sound hdm (by omega) m.rule).2 y x hy hx]
    exact cellWrite_eq_specNextCell hRle hCle m.cells m.rule hy hx
  rw [hgrid]

/-- Witness for C1 at the repository's own blinker test model. -/
theorem c1_idle_generation_step_witness :
    blinkModel.update Message.Idle
      = some { blinkModel with cells := specNextGrid blinkModel.cells blinkModel.rule } :=
  c1_idle_generation_step blinkModel (by decide) rfl

/-- C2 counterexample: in the Terminated (Done) state, delivering
ToggleCellState is not a no-op — it still flips the cell under the
cursor — so not every message leaves a terminated model unchanged. -/
theorem c2_done_absorbing_cex :
    doneModel.update Message.ToggleCellState ≠ some doneModel := by
  decide

/-- C2 (amended): for every model whose mode is Terminated (Done),
delivering Move, ToggleEditing, Idle, or Quit leaves the entire model
(grid cells, cursor, rule, mode) unchanged.  ToggleCellState is the
exception: it still flips the cell at the cursor (see the
counterexample). -/
theorem c2_done_absorbing (m : Model) (d : Direction) (h : m.state = State.Done) :
    m.update (Message.Move d) = some m ∧
    m.update Message.ToggleEditing = some m ∧
    m.update Message.Idle = some m ∧
    m.update Message.Quit = some m := by
  refine ⟨?_, ?_, ?_, ?_⟩
  · show some (m.move_cursor_in_direction d) = some m
    have hmc : ∀ a b, m.move_cursor a b = m := by
      intro a b
      unfold Model.move_cursor
      rw [if_neg (by rw [h]; simp)]
    cases d <;> simp [Model.move_cursor_in_direction, hmc]
  · show some m.toggle_editing_state = some m
    unfold Model.toggle_editing_state
    rw [if_neg (by rw [h]; simp), if_neg (by rw [h]; simp)]
  · show m.pass_tick = some m
    unfold Model.pass_tick
    rw [if_pos (by rw [h]; simp)]
  · show some m.quit = some m
    unfold Model.quit
    rw [show ({ m with state := State.Done } : Model) = m by rw [← h]]

/-- Witness for C2 (amended) at a concrete terminated model. -/
theorem c2_done_absorbing_witness :
    doneModel.update (Message.Move Direction.Up) = some doneModel ∧
    doneModel.update Message.ToggleEditing = some doneModel ∧
    doneModel.update Message.Idle = some doneModel ∧
    doneModel.update Message.Quit = some doneModel :=
  c2_done_absorbing doneModel Direction.Up rfl

/-- C5 counterexample: a write at row 32768 — a coordinate that exceeds
the bounds — is not silently ignored: the `usize as i16` cast wraps it
to -32768, the bounds check passes, and the unchecked index panics
(modelled as `none`). -/
theorem c5_oob_write_cex :
    tinyModel.update_cell 32768 0 true = none ∧
    tinyModel.update_cell 32768 0 true ≠ some tinyModel := by
  constructor <;> decide

/-- C5 (amended): for every grid and every coordinate pair below 2^15
(where the `usize as i16` cast is value-preserving) in which either
coordinate exceeds the configured bounds, the cell write is silently
ignored: it does not fail or panic and the grid is unchanged.
Coordinates ≥ 2^15 can instead wrap through the cast, pass the bounds
check and panic on the underlying index (see the counterexample). -/
theorem c5_oob_write_ignored (m : Model) (y x : Nat) (v : Bool)
    (hy : y < 32768) (hx : x < 32768)
    (hoob : m.max_coords.y < (y : Int) ∨ m.max_coords.x < (x : Int)) :
    m.update_cell y x v = some m := by
  unfold Model.update_cell
  rw [usizeAsI16_eq_of_lt hy, usizeAsI16_eq_of_lt hx, if_neg (by omega)]

/-- Witness for C5 (amended): an out-of-bounds write with small
coordinates leaves the model untouched. -/
theorem c5_oob_write_ignored_witness :
    tinyModel.update_cell 5 0 true = some tinyModel :=
  c5_oob_write_ignored tinyModel 5 0 true (by decide) (by decide) (by decide)

/-- C10: delivering Move modifies at most the cursor coordinate: the
cell grid, the rule, the tickrate, the maxima and the mode are always
left unchanged, in every mode. -/
theorem c10_move_frame (m : Model) (d : Direction) :
    m.update (Message.Move d)
      = some { m with current_coords := (m.move_cursor_in_direction d).current_coords } := by
  show some (m.move_cursor_in_direction d) = _
  unfold Model.move_cursor_in_direction Model.move_cursor
  cases d <;> by_cases h : m.state = State.Editing <;> simp [h]

/-- Witness for C10 at a concrete model and direction. -/
theorem c10_move_frame_witness :
    blinkModel.update (Message.Move Direction.Down)
      = some { blinkModel with
          current_coords := (blinkModel.move_cursor_in_direction Direction.Down).current_coords } :=
  c10_move_frame blinkModel Direction.Down

/-- C9: a rule string whose scan reaches a state with neither section
flag set aborts with the default rule (births [3], survivals [2, 3]);
since the flags start unset and, once one is set, exactly one stays set
forever, this is precisely the strings whose first character is neither
'B' nor 'S'.  Concretely, parsing "2983uhjnere" yields the default rule,
while parsing "B45/S10" yields births [4, 5] and survivals [1, 0] in
encounter order, unsorted. -/
theorem c9_parse_default (c : Char) (cs : List Char) (hB : c ≠ 'B') (hS : c ≠ 'S') :
    ruleScan (c :: cs) false false [] [] = Rule.default ∧
    Rule.parse "2983uhjnere" = Rule.default ∧
    Rule.parse "B45/S10" = { birth_list := [4, 5], survival_list := [1, 0] } := by
  refine ⟨?_, by decide, by decide⟩
  unfold ruleScan
  rw [if_neg hB, if_neg hS]
  by_cases ha : c.isAlpha
  · rw [if_pos ⟨hB, hS, ha⟩]
  · rw [if_neg (by tauto), if_pos ⟨rfl, rfl⟩]

/-- Witness for C9 at the digit-first string "2983uhjnere". -/
theorem c9_parse_default_witness :
    ruleScan ['2'] false false [] [] = Rule.default ∧
    Rule.parse "2983uhjnere" = Rule.default ∧
    Rule.parse "B45/S10" = { birth_list := [4, 5], survival_list := [1, 0] } :=
  c9_parse_default '2' [] (by decide) (by decide)

/-- C6: construction fails fatally (panics) if and only if maxRow ≤ 0 or
maxCol ≤ 0 or some listed birth or survival count exceeds 8 (the rule
and dimension checks run before the grid is built); otherwise it returns
a model whose cells form an all-dead grid of (maxRow+1) rows by
(maxCol+1) columns, with mode Editing and cursor at (0, 0). -/
theorem c6_construction (max_y max_x : Int) (bl sl : List Nat) (t : Nat) :
    (Model.new max_y max_x bl sl t = none ↔
      max_x ≤ 0 ∨ max_y ≤ 0 ∨ (∃ b ∈ bl, 8 < b) ∨ (∃ s ∈ sl, 8 < s)) ∧
    (∀ m, Model.new max_y max_x bl sl t = some m →
      m.cells.length = max_y.toNat + 1 ∧
      (∀ row ∈ m.cells, row.length = max_x.toNat + 1 ∧ ∀ c ∈ row, c = false) ∧
      m.state = State.Editing ∧ m.current_coords = { x := 0, y := 0 } ∧
      m.max_coords = { x := max_x, y := max_y } ∧
      m.rule = { birth_list := bl, survival_list := sl } ∧ m.tickrate = t) := by
  unfold Model.new
  by_cases h1 : bl.any (fun birth => 8 < birth)
  · rw [if_pos h1]
    refine ⟨⟨fun _ => ?_, fun _ => rfl⟩, fun m hm => by simp at hm⟩
    have hb : ∃ b ∈ bl, 8 < b := by simpa using h1
    exact Or.inr (Or.inr (Or.inl hb))
  · rw [if_neg h1]
    by_cases h2 : sl.any (fun survival => 8 < survival)
    · rw [if_pos h2]
      refine ⟨⟨fun _ => ?_, fun _ => rfl⟩, fun m hm => by simp at hm⟩
      have hs : ∃ s ∈ sl, 8 < s := by simpa using h2
      exact Or.inr (Or.inr (Or.inr hs))
    · rw [if_neg h2]
      by_cases h3 : max_x ≤ 0 ∨ max_y ≤ 0
      · rw [if_pos h3]
        refine ⟨⟨fun _ => ?_, fun _ => rfl⟩, fun m hm => by simp at hm⟩
        exact h3.imp (fun h => h) (fun h => Or.inl h)
      · rw [if_neg h3]
        constructor
        · constructor
          · intro hsome
            simp at hsome
          · intro hcond
            exfalso
            have hb : ¬∃ b ∈ bl, 8 < b := by simpa using h1
            have hs : ¬∃ s ∈ sl, 8 < s := by simpa using h2
            rcases hcond with h | h | h | h
            exacts [h3 (Or.inl h), h3 (Or.inr h), hb h, hs h]
        · intro m hm
          rcases Option.some.inj hm with rfl
          refine ⟨by simp, ?_, rfl, rfl, rfl, rfl, rfl⟩
          intro row hrow
          rw [List.eq_of_mem_replicate hrow]
          exact ⟨by simp, fun c hc => List.eq_of_mem_replicate hc⟩

/-- Witness for C6: construction with maxCol = -1 panics; construction
with maxima (4, 4) yields the expected Editing model with cursor at the
origin. -/
theorem c6_construction_witness :
    Model.new 4 (-1) [3] [2, 3] 100 = none ∧
    (newModel44.state = State.Editing ∧ newModel44.current_coords = { x := 0, y := 0 }) :=
  ⟨(c6_construction 4 (-1) [3] [2, 3] 100).1.mpr (Or.inl (by norm_num)),
   ⟨((c6_construction 4 4 [3] [2, 3] 100).2 newModel44 (by decide)).2.2.1,
    ((c6_construction 4 4 [3] [2, 3] 100).2 newModel44 (by decide)).2.2.2.1⟩⟩

/-- Every clamped axis value lands inside `[0, mx]`. -/
lemma clampAxis_mem {cur delta mx : Int} (h : 0 < mx) :
    0 ≤ clampAxis cur delta mx ∧ clampAxis cur delta mx ≤ mx := by
  unfold clampAxis
  split_ifs <;> omega

/-- C7 counterexample: `edgeModel` is a well-formed Editing model whose
horizontal maximum is the i16 maximum 32767 and whose cursor sits on it;
Move Right then proposes 32768, which the claim says is clamped to the
maximum — but the unchecked i16 addition wraps to -32768 and the cursor
is clamped to 0 instead. -/
theorem c7_move_clamp_cex :
    wfModel edgeModel ∧
    edgeModel.update (Message.Move Direction.Right)
      = some { edgeModel with current_coords := { x := 0, y := 0 } } ∧
    (0 : Int) ≠ edgeModel.max_coords.x := by
  refine ⟨?_, rfl, by decide⟩
  refine ⟨by decide, by decide, by decide, by decide, ⟨?_, ?_⟩,
    by decide, by decide, by decide, by decide⟩
  · show (List.replicate 2 (List.replicate 32768 false)).length = (1 : Int).toNat + 1
    rw [List.length_replicate]
    rfl
  · intro i hi
    have hrow : (edgeModel.cells).getD i [] = List.replicate 32768 false := by
      show (List.replicate 2 (List.replicate 32768 false)).getD i [] = _
      rw [List.getD_eq_getElem?_getD, List.getElem?_replicate_of_lt (show i < 2 from hi)]
      rfl
    rw [hrow, List.length_replicate]
    rfl

/-- C7 (amended): for every well-formed model whose axis maxima lie
below the i16 maximum 32767 (so the unchecked i16 additions cannot
overflow): while Editing, Move updates each cursor axis independently —
the proposed value is clamped to 0 when ≤ 0, to the axis maximum when ≥
that maximum, and assigned directly otherwise — so the cursor lands
inside [0, axisMax]; while Running or Terminated, Move has no effect.
At an axis maximum of exactly 32767 the addition can wrap (see the
counterexample). -/
theorem c7_move_clamp (m : Model) (d : Direction) (hwf : wfModel m)
    (hmx : m.max_coords.x < 32767) (hmy : m.max_coords.y < 32767) :
    (m.state = State.Editing →
      m.update (Message.Move d) = some { m with current_coords :=
        { x := clampAxis m.current_coords.x (dirDelta d).1 m.max_coords.x,
          y := clampAxis m.current_coords.y (dirDelta d).2 m.max_coords.y } }) ∧
    (0 ≤ clampAxis m.current_coords.x (dirDelta d).1 m.max_coords.x ∧
     clampAxis m.current_coords.x (dirDelta d).1 m.max_coords.x ≤ m.max_coords.x ∧
     0 ≤ clampAxis m.current_coords.y (dirDelta d).2 m.max_coords.y ∧
     clampAxis m.current_coords.y (dirDelta d).2 m.max_coords.y ≤ m.max_coords.y) ∧
    (m.state ≠ State.Editing → m.update (Message.Move d) = some m) := by
  obtain ⟨hx1, _, hy1, _, _, hcx1, hcx2, hcy1, hcy2⟩ := hwf
  refine ⟨?_,
    ⟨(clampAxis_mem (by omega)).1, (clampAxis_mem (by omega)).2,
     (clampAxis_mem (by omega)).1, (clampAxis_mem (by omega)).2⟩, ?_⟩
  · intro hedit
    show some (m.move_cursor_in_direction d) = _
    cases d <;>
      (simp only [Model.move_cursor_in_direction]
       unfold Model.move_cursor
       rw [if_pos hedit, i16Wrap_eq_of_bounds (by omega) (by omega),
           i16Wrap_eq_of_bounds (by omega) (by omega)]
       rfl)
  · intro hne
    show some (m.move_cursor_in_direction d) = some m
    have hmc : ∀ a b, m.move_cursor a b = m := by
      intro a b
      unfold Model.move_cursor
      rw [if_neg hne]
    cases d <;> simp [Model.move_cursor_in_direction, hmc]

/-- Witness for C7 (amended) at a concrete Editing model. -/
theorem c7_move_clamp_witness :
    (wideModel.state = State.Editing →
      wideModel.update (Message.Move Direction.Right) = some { wideModel with current_coords :=
        { x := clampAxis wideModel.current_coords.x (dirDelta Direction.Right).1
                 wideModel.max_coords.x,
          y := clampAxis wideModel.current_coords.y (dirDelta Direction.Right).2
                 wideModel.max_coords.y } }) ∧
    (0 ≤ clampAxis wideModel.current_coords.x (dirDelta Direction.Right).1
           wideModel.max_coords.x ∧
     clampAxis wideModel.current_coords.x (dirDelta Direction.Right).1 wideModel.max_coords.x
       ≤ wideModel.max_coords.x ∧
     0 ≤ clampAxis wideModel.current_coords.y (dirDelta Direction.Right).2
           wideModel.max_coords.y ∧
     clampAxis wideModel.current_coords.y (dirDelta Direction.Right).2 wideModel.max_coords.y
       ≤ wideModel.max_coords.y) ∧
    (wideModel.state ≠ State.Editing →
      wideModel.update (Message.Move Direction.Right) = some wideModel) :=
  c7_move_clamp wideModel Direction.Right (by decide) (by decide) (by decide)

/-! ### Scan-step lemmas for the rulestring parser -/

/-- One scan step on a character that is none of 'B', 'S', alphabetic or
a digit, with a section open: the character is skipped, lists intact. -/
lemma ruleScan_skip {ch : Char} (hB : ch ≠ 'B') (hS : ch ≠ 'S')
    (ha : ch.isAlpha = false) (hd : ch.isDigit = false)
    (rest : List Char) {ib is0 : Bool} (hopen : ib = true ∨ is0 = true)
    (bl sl : List Nat) :
    ruleScan (ch :: rest) ib is0 bl sl = ruleScan rest ib is0 bl sl := by
  rcases hopen with h | h <;> subst h <;> simp [ruleScan, hB, hS, ha, hd]

/-- One scan step on an alphabetic character other than 'B'/'S': the
scan aborts with the default rule regardless of the flags. -/
lemma ruleScan_alpha {ch : Char} (hB : ch ≠ 'B') (hS : ch ≠ 'S')
    (ha : ch.isAlpha = true) (rest : List Char) (ib is0 : Bool) (bl sl : List Nat) :
    ruleScan (ch :: rest) ib is0 bl sl = Rule.default := by
  simp [ruleScan, hB, hS, ha]

/-- One scan step on 'B': open the births section. -/
lemma ruleScan_B (rest : List Char) (ib is0 : Bool) (bl sl : List Nat) :
    ruleScan ('B' :: rest) ib is0 bl sl = ruleScan rest true false bl sl := by
  have hd : ('B').isDigit = false := by decide
  simp [ruleScan, hd]

/-- One scan step on 'S': open the survivals section. -/
lemma ruleScan_S (rest : List Char) (ib is0 : Bool) (bl sl : List Nat) :
    ruleScan ('S' :: rest) ib is0 bl sl = ruleScan rest false true bl sl := by
  have hd : ('S').isDigit = false := by decide
  have hBS : ('S') ≠ 'B' := by decide
  simp [ruleScan, hd, hBS]

/-- Scanning a block of digit characters while collecting births
appends their values, in order, to the birth list. -/
lemma ruleScan_digits_born : ∀ (ds : List Char), (∀ c ∈ ds, c ∈ rulestringDigits) →
    ∀ (rest : List Char) (bl sl : List Nat),
    ruleScan (ds ++ rest) true false bl sl
      = ruleScan rest true false (bl ++ ds.map digitVal) sl
  | [], _, rest, bl, sl => by simp
  | c :: ds, hds, rest, bl, sl => by
    have hc : c ∈ rulestringDigits := hds c (by simp)
    have hB : c ≠ 'B' := by fin_cases hc <;> decide
    have hS : c ≠ 'S' := by fin_cases hc <;> decide
    have hd : c.isDigit = true := by fin_cases hc <;> decide
    have ha : c.isAlpha = false := by fin_cases hc <;> decide
    show ruleScan (c :: (ds ++ rest)) true false bl sl = _
    rw [show ruleScan (c :: (ds ++ rest)) true false bl sl
          = ruleScan (ds ++ rest) true false (bl ++ [c.toNat - 48]) sl by
        simp [ruleScan, hB, hS, hd, ha],
      ruleScan_digits_born ds (fun c hc => hds c (by simp [hc])) rest]
    simp [digitVal]

/-- Scanning a trailing block of digit characters while collecting
survivals appends their values, in order, to the survival list. -/
lemma ruleScan_digits_surv : ∀ (ds : List Char), (∀ c ∈ ds, c ∈ rulestringDigits) →
    ∀ (bl sl : List Nat),
    ruleScan ds false true bl sl
      = { birth_list := bl, survival_list := sl ++ ds.map digitVal }
  | [], _, bl, sl => by simp [ruleScan]
  | c :: ds, hds, bl, sl => by
    have hc : c ∈ rulestringDigits := hds c (by simp)
    have hB : c ≠ 'B' := by fin_cases hc <;> decide
    have hS : c ≠ 'S' := by fin_cases hc <;> decide
    have hd : c.isDigit = true := by fin_cases hc <;> decide
    have ha : c.isAlpha = false := by fin_cases hc <;> decide
    rw [show ruleScan (c :: ds) false true bl sl
          = ruleScan ds false true bl (sl ++ [c.toNat - 48]) by
        simp [ruleScan, hB, hS, hd, ha],
      ruleScan_digits_surv ds (fun c hc => hds c (by simp [hc])) bl]
    simp [digitVal]

/-- Parsing a canonical `B<digits>/S<digits>` string collects exactly
the two digit blocks, in order. -/
lemma parse_canonical (ds1 ds2 : List Char)
    (h1 : ∀ c ∈ ds1, c ∈ rulestringDigits) (h2 : ∀ c ∈ ds2, c ∈ rulestringDigits) :
    ruleScan ('B' :: ds1 ++ '/' :: 'S' :: ds2) false false [] []
      = { birth_list := ds1.map digitVal, survival_list := ds2.map digitVal } := by
  rw [show ('B' :: ds1 ++ '/' :: 'S' :: ds2 : List Char)
        = 'B' :: (ds1 ++ '/' :: 'S' :: ds2) by simp,
    ruleScan_B, ruleScan_digits_born ds1 h1,
    ruleScan_skip (by decide) (by decide) (by decide) (by decide) _ (Or.inl rfl),
    ruleScan_S, ruleScan_digits_surv ds2 h2]
  simp

/-- C4 counterexample: with the births section open after "B3", the
alphabetic character 'a' is not skipped — parsing "B3a" aborts with the
default rule instead of continuing the scan as parsing "B3" does. -/
theorem c4_skip_nondigit_cex :
    Rule.parse "B3a" ≠ Rule.parse "B3" ∧
    Rule.parse "B3a" = Rule.default ∧
    Rule.parse "B3" = { birth_list := [3], survival_list := [] } := by
  refine ⟨by decide, by decide, by decide⟩

/-- C4 (amended): once a B or S section has been opened during parsing,
every subsequent ASCII character that is not a decimal digit, 'B', 'S',
or an alphabetic character (for example punctuation such as '/') is
silently skipped, leaving the collected birth and survival lists intact
and continuing the scan; an alphabetic character other than 'B'/'S',
however, aborts parsing and returns the default rule even when a
section is open.  The statement is restricted to ASCII characters,
where the embedding's `Char.isAlpha` coincides with the program's
Unicode `char::is_alphabetic`; a non-ASCII letter such as 'é' also
makes `Rule::from` abort with the default rule, it is not skipped. -/
theorem c4_skip_nondigit (ch : Char) (rest : List Char) (ib is0 : Bool)
    (bl sl : List Nat) (hascii : ch.toNat < 128) (hopen : ib = true ∨ is0 = true)
    (hB : ch ≠ 'B') (hS : ch ≠ 'S') :
    (ch.isAlpha = false → ch.isDigit = false →
      ruleScan (ch :: rest) ib is0 bl sl = ruleScan rest ib is0 bl sl) ∧
    (ch.isAlpha = true → ruleScan (ch :: rest) ib is0 bl sl = Rule.default) :=
  ⟨fun ha hd => ruleScan_skip hB hS ha hd rest hopen bl sl,
   fun ha => ruleScan_alpha hB hS ha rest ib is0 bl sl⟩

/-- Witness for C4 (amended): skipping '/' mid-scan. -/
theorem c4_skip_nondigit_witness :
    (('/').isAlpha = false → ('/').isDigit = false →
      ruleScan ['/', 'S', '2'] true false [3] [] = ruleScan ['S', '2'] true false [3] []) ∧
    (('/').isAlpha = true → ruleScan ['/', 'S', '2'] true false [3] [] = Rule.default) :=
  c4_skip_nondigit '/' ['S', '2'] true false [3] [] (by decide) (Or.inl rfl)
    (by decide) (by decide)

/-! ### The canonical-rulestring roundtrip -/

lemma data_append (a b : String) : (a ++ b).data = a.data ++ b.data := rfl

/-- Rendering a digit list with the `rulestring` fold appends the
decimal renderings of its entries. -/
lemma data_foldl_digits (l : List Nat) : ∀ (acc : String),
    (l.foldl (fun acc d => acc ++ String.mk (Nat.toDigits 10 d)) acc).data
      = acc.data ++ (l.map (fun d => Nat.toDigits 10 d)).flatten := by
  induction l with
  | nil =>
    intro acc
    simp
  | cons d rest ih =>
    intro acc
    rw [List.foldl_cons, ih]
    simp [data_append]

/-- The decimal rendering of a digit character's value is that
character. -/
lemma toDigits_digitVal {c : Char} (hc : c ∈ rulestringDigits) :
    Nat.toDigits 10 (digitVal c) = [c] := by
  fin_cases hc <;> decide

/-- Rendering the values of a digit-character block reproduces the
block. -/
lemma join_digits (ds : List Char) (h : ∀ c ∈ ds, c ∈ rulestringDigits) :
    ((ds.map digitVal).map (fun d => Nat.toDigits 10 d)).flatten = ds := by
  induction ds with
  | nil => simp
  | cons c rest ih =>
    simp only [List.map_cons, List.flatten_cons]
    rw [toDigits_digitVal (h c (by simp)), ih (fun c hc => h c (by simp [hc]))]
    rfl

/-- C8: for every rule string s that is already canonical — matching
B&lt;digits&gt;/S&lt;digits&gt; with each digit list sorted ascending and
duplicate-free — formatting the parsed rule reproduces s exactly:
`rulestring` after `parse` is the identity on canonical strings. -/
theorem c8_canonical_roundtrip (s : String) (m : Model)
    (hrule : m.rule = Rule.parse s) (hcanon : IsCanonicalRulestring s) :
    m.rulestring = s := by
  obtain ⟨ds1, ds2, hdata, h1, h2, _, _⟩ := hcanon
  have hparse : Rule.parse s
      = { birth_list := ds1.map digitVal, survival_list := ds2.map digitVal } := by
    unfold Rule.parse
    rw [hdata]
    exact parse_canonical ds1 ds2 h1 h2
  have hb : m.rule.birth_list = ds1.map digitVal := by rw [hrule, hparse]
  have hs2 : m.rule.survival_list = ds2.map digitVal := by rw [hrule, hparse]
  apply String.ext
  unfold Model.rulestring
  rw [hb, hs2, data_foldl_digits, data_append, data_foldl_digits,
      join_digits ds2 h2, join_digits ds1 h1, hdata]
  simp

/-- Witness for C8 at the canonical string "B3/S23". -/
theorem c8_canonical_roundtrip_witness :
    newModel44.rulestring = "B3/S23" :=
  c8_canonical_roundtrip "B3/S23" newModel44 (by decide)
    ⟨['3'], ['2', '3'], by decide, by decide, by decide, by simp,
     by simp [List.chain'_cons]⟩

/-! ### Pattern overlay (`insert_cells`) -/

/-- One row of `insert_cells`: writes the line into row `y` from column
`x` on; succeeds when the line fits. -/
lemma insertRow_sound {R C : Nat} {y : Nat} (hy : y < R) :
    ∀ (line : List Bool) (x : Nat) (g : List (List Bool)),
      dims g R C → x + line.length ≤ C →
      ∃ g', insertRow y x line g = some g' ∧ dims g' R C ∧
        ∀ y' x', getCell g' y' x' =
          if y' = y ∧ x ≤ x' ∧ x' < x + line.length then line.getD (x' - x) false
          else getCell g y' x'
  | [], x, g, hd, _ => by
    refine ⟨g, by simp [insertRow], hd, ?_⟩
    intro y' x'
    rw [if_neg (by simp only [List.length_nil]; omega)]
  | cell :: rest, x, g, hd, hlen => by
    have hxC : x < C := by
      simp only [List.length_cons] at hlen
      omega
    obtain ⟨g1, hset, hd1, hpt1⟩ := setCell_some hd hy hxC cell
    unfold insertRow
    rw [hset]
    obtain ⟨g', hrest, hd', hpt'⟩ :=
      insertRow_sound hy rest (x + 1) g1 hd1
        (by simp only [List.length_cons] at hlen; omega)
    refine ⟨g', hrest, hd', ?_⟩
    intro y' x'
    rw [hpt']
    by_cases h1 : y' = y ∧ x + 1 ≤ x' ∧ x' < x + 1 + rest.length
    · rw [if_pos h1,
          if_pos ⟨h1.1, by omega, by simp only [List.length_cons]; omega⟩,
          show x' - x = (x' - (x + 1)) + 1 by omega, List.getD_cons_succ]
    · by_cases h2 : y' = y ∧ x' = x
      · rw [if_neg h1, hpt1, if_pos h2,
            if_pos ⟨h2.1, by omega, by simp only [List.length_cons]; omega⟩, h2.2,
            Nat.sub_self, List.getD_cons_zero]
      · rw [if_neg h1, hpt1, if_neg h2,
            if_neg (by simp only [List.length_cons]; omega)]

/-- All rows of `insert_cells`: writes the pattern with its top-left
corner at row `y`, column 0; succeeds when the pattern fits. -/
lemma insertRows_sound {R C : Nat} :
    ∀ (pat : List (List Bool)) (y : Nat) (g : List (List Bool)),
      dims g R C → y + pat.length ≤ R →
      (∀ i, i < pat.length → (pat.getD i []).length ≤ C) →
      ∃ g', insertRows y pat g = some g' ∧ dims g' R C ∧
        ∀ y' x', getCell g' y' x' =
          if y ≤ y' ∧ y' < y + pat.length ∧ x' < (pat.getD (y' - y) []).length then
            getCell pat (y' - y) x'
          else getCell g y' x'
  | [], y, g, hd, _, _ => by
    refine ⟨g, by simp [insertRows], hd, ?_⟩
    intro y' x'
    rw [if_neg (by simp only [List.length_nil]; omega)]
  | line :: pat, y, g, hd, hlen, hrows => by
    have hyR : y < R := by
      simp only [List.length_cons] at hlen
      omega
    have hlinelen : line.length ≤ C := by
      have h0 := hrows 0 (by simp)
      simpa using h0
    obtain ⟨g1, hrow, hd1, hpt1⟩ := insertRow_sound hyR line 0 g hd (by omega)
    unfold insertRows
    rw [hrow]
    obtain ⟨g', hrest, hd', hpt'⟩ :=
      insertRows_sound pat (y + 1) g1 hd1
        (by simp only [List.length_cons] at hlen; omega)
        (by
          intro i hi
          have hnext := hrows (i + 1) (by simp only [List.length_cons]; omega)
          simpa using hnext)
    refine ⟨g', hrest, hd', ?_⟩
    intro y' x'
    rw [hpt']
    by_cases h1 : y + 1 ≤ y' ∧ y' < y + 1 + pat.length
        ∧ x' < (pat.getD (y' - (y + 1)) []).length
    · have hk : y' - y = (y' - (y + 1)) + 1 := by omega
      rw [if_pos h1,
          if_pos ⟨by omega, by simp only [List.length_cons]; omega,
            by rw [hk, List.getD_cons_succ]; exact h1.2.2⟩,
          getCell_def, getCell_def, hk, List.getD_cons_succ]
    · by_cases h2 : y' = y ∧ x' < line.length
      · rw [if_neg h1, hpt1,
            if_pos ⟨h2.1, by omega, by omega⟩,
            if_pos ⟨by omega, by simp only [List.length_cons]; omega,
              by rw [h2.1, Nat.sub_self, List.getD_cons_zero]; exact h2.2⟩,
            getCell_def, h2.1, Nat.sub_self, List.getD_cons_zero, Nat.sub_zero]
      · rw [if_neg h1, hpt1, if_neg (by omega), if_neg ?hcon]
        case hcon =>
          intro hcon
          obtain ⟨ha, hbnd, hx⟩ := hcon
          by_cases hy' : y' = y
          · rw [hy', Nat.sub_self, List.getD_cons_zero] at hx
            exact h2 ⟨hy', hx⟩
          · have hk : y' - y = (y' - (y + 1)) + 1 := by omega
            rw [hk, List.getD_cons_succ] at hx
            exact h1 ⟨by omega, by simp only [List.length_cons] at hbnd; omega, hx⟩

/-- C3 counterexample: loading the 6×6 Mold preset into a 2×2 grid does
not truncate to the overlapping region without failure — the unchecked
indexed write panics (modelled as `none`). -/
theorem c3_preset_overlay_cex :
    tinyModel.load_preset Preset.Mold (fun _ _ => false) = none := by
  decide

/-- C3 (amended): when the pattern fits inside the grid (its row count
and every row's length within the grid's), loading writes the pattern's
cells into the grid starting at (0,0) and leaves grid cells outside the
pattern's extent unchanged; but when the pattern is larger than the grid
in either dimension the unchecked write panics instead of writing only
the overlapping region (see the counterexample). -/
theorem c3_preset_overlay (m : Model) (pat : List (List Bool)) (R C : Nat)
    (hd : dims m.cells R C) (hrows : pat.length ≤ R)
    (hcols : ∀ i, i < pat.length → (pat.getD i []).length ≤ C) :
    ∃ m', m.insert_cells pat = some m' ∧
      m'.rule = m.rule ∧ m'.state = m.state ∧ m'.current_coords = m.current_coords ∧
      m'.max_coords = m.max_coords ∧ m'.tickrate = m.tickrate ∧ dims m'.cells R C ∧
      ∀ y x, getCell m'.cells y x =
        if y < pat.length ∧ x < (pat.getD y []).length then getCell pat y x
        else getCell m.cells y x := by
  obtain ⟨g', hins, hd', hpt⟩ := insertRows_sound pat 0 m.cells hd (by omega) hcols
  refine ⟨{ m with cells := g' }, ?_, rfl, rfl, rfl, rfl, rfl, hd', ?_⟩
  · unfold Model.insert_cells
    rw [hins]
    rfl
  · intro y x
    rw [hpt y x]
    simp only [Nat.sub_zero, Nat.zero_add, Nat.zero_le, true_and]

/-- Witness for C3 (amended): the Blinker preset loaded into the 5×6
grid of the repository's `load_preset` test. -/
theorem c3_preset_overlay_witness :
    ∃ m', wideModel.insert_cells blinkerCells = some m' ∧
      m'.rule = wideModel.rule ∧ m'.state = wideModel.state ∧
      m'.current_coords = wideModel.current_coords ∧
      m'.max_coords = wideModel.max_coords ∧ m'.tickrate = wideModel.tickrate ∧
      dims m'.cells 5 6 ∧
      ∀ y x, getCell m'.cells y x =
        if y < blinkerCells.length ∧ x < (blinkerCells.getD y []).length then
          getCell blinkerCells y x
        else getCell wideModel.cells y x :=
  c3_preset_overlay wideModel blinkerCells 5 6 (by decide) (by decide) (by decide)

/-! ### Sanity checks reproducing the repository's unit tests -/

example : Rule.parse "2983uhjnere" = Rule.default := by decide

example : Rule.parse "B45/S10" = { birth_list := [4, 5], survival_list := [1, 0] } := by
  decide

example : blinkModel.pass_tick =
    some { blinkModel with cells :=
      [[false, false, false, false, false],
       [false, false, true, false, false],
       [false, false, true, false, false],
       [false, false, true, false, false],
       [false, false, false, false, false]] } := by
  decide

example : specNextGrid blinkModel.cells blinkModel.rule =
    [[false, false, false, false, false],
     [false, false, true, false, false],
     [false, false, true, false, false],
     [false, false, true, false, false],
     [false, false, false, false, false]] := by
  decide

example :
    ({ blinkModel with cells := moldCells, max_coords := { x := 5, y := 5 } } : Model).pass_tick =
    some { blinkModel with
      cells :=
        [[false, false, false, true, true, false],
         [false, false, true, false, false, true],
         [false, false, false, true, false, true],
         [false, true, true, false, true, false],
         [false, true, true, true, false, false],
         [false, true, true, false, false, false]]
      max_coords := { x := 5, y := 5 } } := by
  decide

example : wideModel.load_preset Preset.Blinker (fun _ _ => false) =
    some { wideModel with cells :=
      [[false, false, false, false, false, false],
       [true, true, true, false, false, false],
       [false, false, false, false, false, false],
       [false, false, false, false, false, false],
       [false, false, false, false, false, false]] } := by
  decide

example :
    (Model.rulestring { wideModel with
      rule := { birth_list := [2, 3, 5], survival_list := [1, 7] } }) = "B235/S17" := by
  decide

example : Model.new 10 (-1) [] [] 4 = none := by decide

example : Model.new 0 10 [] [] 4 = none := by decide

example : Model.new 10 10 [1, 2, 9] [1, 2, 3] 4 = none := by decide

example : Model.new 10 10 [4, 4, 4] [9, 4, 4] 4 = none := by decide

end TuiCA

